import Mathlib

/-!
Verification of the semantic-classification layer of a JS/TS source-code
formatter (`src/language-js/utils.js`).

The AST nodes produced by the various parsers are dynamic JS objects; we
embed them as a record of the fields the classifiers under verification
actually read.  A missing field is `none`.  Truthiness of a node-valued or
array-valued field is `Option.isSome` (JS objects and arrays, including
empty arrays, are truthy).  Where a classifier reads a primitive-valued
field (`typeof node.value`), the runtime value is embedded as `JSVal`.
`===` on two AST nodes is JS reference identity; node identity is embedded
as the `id` field.
-/

set_option maxHeartbeats 4000000

namespace PrettierUtils

/-- typeof-level view of a JS runtime value stored on a literal node. -/
inductive JSVal : Type where
  | num : JSVal
  | str : JSVal
  | other : JSVal
deriving DecidableEq

/-- A JS field that holds either a single AST node (for example a function
body or an if-statement consequent) or an array of nodes (a block body or a
switch-case consequent). -/
inductive NodeOrList (N : Type) : Type where
  | one : N → NodeOrList N
  | many : List N → NodeOrList N

/-- The fields of an object-literal property that the classifiers read. -/
structure ObjectProp (N : Type) : Type where
  computed : Bool := false
  shorthand : Bool := false
  value : Option N := none

/-- The fields of an AST node read by the classifiers under verification.
`regex` embeds `node.regex.pattern` (present iff the node carries a regex
side record); `prefixFlag` embeds the source field `prefix`; `comments`
records whether the node has a (truthy) attached-comments field. -/
structure Fields (N : Type) : Type where
  type : String := ""
  name : Option String := none
  value : Option JSVal := none
  regex : Option String := none
  pattern : Option String := none
  expressions : Option (List N) := none
  left : Option N := none
  test : Option N := none
  callee : Option N := none
  object : Option N := none
  tag : Option N := none
  argument : Option N := none
  expression : Option N := none
  property : Option N := none
  arguments : List N := []
  params : List N := []
  elements : List (Option N) := []
  properties : List (ObjectProp N) := []
  comments : Bool := false
  prefixFlag : Bool := false
  operator : Option String := none
  body : Option (NodeOrList N) := none
  consequent : Option (NodeOrList N) := none
  id : Nat := 0

/-- An AST node: a bundle of dynamic fields. -/
inductive Node : Type where
  | mk : Fields Node → Node

def Node.fields : Node → Fields Node
  | .mk f => f

def Node.type (n : Node) : String := n.fields.type
def Node.name (n : Node) : Option String := n.fields.name
def Node.value (n : Node) : Option JSVal := n.fields.value
def Node.regex (n : Node) : Option String := n.fields.regex
def Node.pattern (n : Node) : Option String := n.fields.pattern
def Node.expressions (n : Node) : Option (List Node) := n.fields.expressions
def Node.left (n : Node) : Option Node := n.fields.left
def Node.test (n : Node) : Option Node := n.fields.test
def Node.callee (n : Node) : Option Node := n.fields.callee
def Node.object (n : Node) : Option Node := n.fields.object
def Node.tag (n : Node) : Option Node := n.fields.tag
def Node.argument (n : Node) : Option Node := n.fields.argument
def Node.expression (n : Node) : Option Node := n.fields.expression
def Node.property (n : Node) : Option Node := n.fields.property
def Node.arguments (n : Node) : List Node := n.fields.arguments
def Node.params (n : Node) : List Node := n.fields.params
def Node.elements (n : Node) : List (Option Node) := n.fields.elements
def Node.properties (n : Node) : List (ObjectProp Node) := n.fields.properties
def Node.comments (n : Node) : Bool := n.fields.comments
def Node.prefixFlag (n : Node) : Bool := n.fields.prefixFlag
def Node.operator (n : Node) : Option String := n.fields.operator
def Node.body (n : Node) : Option (NodeOrList Node) := n.fields.body
def Node.consequent (n : Node) : Option (NodeOrList Node) := n.fields.consequent
def Node.id (n : Node) : Nat := n.fields.id

/-! Size lemmas used for the termination of the recursive classifiers:
every child reachable through a node field is strictly smaller. -/

theorem sizeOf_lt_of_left {n c : Node} (h : n.left = some c) : sizeOf c < sizeOf n := by
  cases n with
  | mk f =>
    cases f with
    | mk ty nm vl rg pt ex lf te ce ob tg ag ep pr ar pm el pp cm pf op bd cs i =>
      simp [Node.left, Node.fields] at h
      subst h
      simp
      omega

theorem sizeOf_lt_of_test {n c : Node} (h : n.test = some c) : sizeOf c < sizeOf n := by
  cases n with
  | mk f =>
    cases f with
    | mk ty nm vl rg pt ex lf te ce ob tg ag ep pr ar pm el pp cm pf op bd cs i =>
      simp [Node.test, Node.fields] at h
      subst h
      simp
      omega

theorem sizeOf_lt_of_callee {n c : Node} (h : n.callee = some c) : sizeOf c < sizeOf n := by
  cases n with
  | mk f =>
    cases f with
    | mk ty nm vl rg pt ex lf te ce ob tg ag ep pr ar pm el pp cm pf op bd cs i =>
      simp [Node.callee, Node.fields] at h
      subst h
      simp
      omega

theorem sizeOf_lt_of_object {n c : Node} (h : n.object = some c) : sizeOf c < sizeOf n := by
  cases n with
  | mk f =>
    cases f with
    | mk ty nm vl rg pt ex lf te ce ob tg ag ep pr ar pm el pp cm pf op bd cs i =>
      simp [Node.object, Node.fields] at h
      subst h
      simp
      omega

theorem sizeOf_lt_of_argument {n c : Node} (h : n.argument = some c) : sizeOf c < sizeOf n := by
  cases n with
  | mk f =>
    cases f with
    | mk ty nm vl rg pt ex lf te ce ob tg ag ep pr ar pm el pp cm pf op bd cs i =>
      simp [Node.argument, Node.fields] at h
      subst h
      simp
      omega

theorem sizeOf_lt_of_expression {n c : Node} (h : n.expression = some c) : sizeOf c < sizeOf n := by
  cases n with
  | mk f =>
    cases f with
    | mk ty nm vl rg pt ex lf te ce ob tg ag ep pr ar pm el pp cm pf op bd cs i =>
      simp [Node.expression, Node.fields] at h
      subst h
      simp
      omega

theorem sizeOf_lt_of_property {n c : Node} (h : n.property = some c) : sizeOf c < sizeOf n := by
  cases n with
  | mk f =>
    cases f with
    | mk ty nm vl rg pt ex lf te ce ob tg ag ep pr ar pm el pp cm pf op bd cs i =>
      simp [Node.property, Node.fields] at h
      subst h
      simp
      omega

theorem sizeOf_lt_of_expressions {n : Node} {l : List Node} (h : n.expressions = some l)
    {e : Node} (he : e ∈ l) : sizeOf e < sizeOf n := by
  cases n with
  | mk f =>
    cases f with
    | mk ty nm vl rg pt ex lf te ce ob tg ag ep pr ar pm el pp cm pf op bd cs i =>
      simp [Node.expressions, Node.fields] at h
      subst h
      have := List.sizeOf_lt_of_mem he
      simp
      omega

theorem sizeOf_lt_of_arguments {n a : Node} (h : a ∈ n.arguments) : sizeOf a < sizeOf n := by
  cases n with
  | mk f =>
    cases f with
    | mk ty nm vl rg pt ex lf te ce ob tg ag ep pr ar pm el pp cm pf op bd cs i =>
      simp [Node.arguments, Node.fields] at h
      have := List.sizeOf_lt_of_mem h
      simp
      omega

theorem sizeOf_lt_of_elements {n e : Node} (h : some e ∈ n.elements) : sizeOf e < sizeOf n := by
  cases n with
  | mk f =>
    cases f with
    | mk ty nm vl rg pt ex lf te ce ob tg ag ep pr ar pm el pp cm pf op bd cs i =>
      simp [Node.elements, Node.fields] at h
      have := List.sizeOf_lt_of_mem h
      simp at this
      simp
      omega

theorem sizeOf_lt_of_propValue {n : Node} {p : ObjectProp Node} (hp : p ∈ n.properties)
    {v : Node} (hv : p.value = some v) : sizeOf v < sizeOf n := by
  cases n with
  | mk f =>
    cases f with
    | mk ty nm vl rg pt ex lf te ce ob tg ag ep pr ar pm el pp cm pf op bd cs i =>
      simp [Node.properties, Node.fields] at hp
      have h1 := List.sizeOf_lt_of_mem hp
      cases p with
      | mk pc ps pv =>
        simp at hv
        subst hv
        simp at h1
        simp
        omega

theorem sizeOf_expressionsList_lt {n : Node} {l : List Node} (h : n.expressions = some l) :
    sizeOf l < sizeOf n := by
  cases n with
  | mk f =>
    cases f with
    | mk ty nm vl rg pt ex lf te ce ob tg ag ep pr ar pm el pp cm pf op bd cs i =>
      simp [Node.expressions, Node.fields] at h
      subst h
      simp
      omega

theorem sizeOf_argumentsField_lt (n : Node) : sizeOf n.arguments < sizeOf n := by
  cases n with
  | mk f =>
    cases f with
    | mk ty nm vl rg pt ex lf te ce ob tg ag ep pr ar pm el pp cm pf op bd cs i =>
      simp [Node.arguments, Node.fields]
      omega

theorem sizeOf_elementsField_lt (n : Node) : sizeOf n.elements < sizeOf n := by
  cases n with
  | mk f =>
    cases f with
    | mk ty nm vl rg pt ex lf te ce ob tg ag ep pr ar pm el pp cm pf op bd cs i =>
      simp [Node.elements, Node.fields]
      omega

theorem sizeOf_propertiesField_lt (n : Node) : sizeOf n.properties < sizeOf n := by
  cases n with
  | mk f =>
    cases f with
    | mk ty nm vl rg pt ex lf te ce ob tg ag ep pr ar pm el pp cm pf op bd cs i =>
      simp [Node.properties, Node.fields]
      omega

theorem ObjectProp.sizeOf_lt_of_value {p : ObjectProp Node} {v : Node}
    (h : p.value = some v) : sizeOf v < sizeOf p := by
  cases p with
  | mk pc ps pv =>
    simp at h
    subst h
    simp
    omega

/-! ## Naked-left-side resolver (source lines 58-119) -/

/-- Embeds `hasNakedLeftSide` (utils.js:58): kind membership, postfix-update
only when not prefix form. -/
def hasNakedLeftSide (node : Node) : Bool :=
  node.type = "AssignmentExpression" ||
  node.type = "BinaryExpression" ||
  node.type = "LogicalExpression" ||
  node.type = "NGPipeExpression" ||
  node.type = "ConditionalExpression" ||
  node.type = "CallExpression" ||
  node.type = "OptionalCallExpression" ||
  node.type = "MemberExpression" ||
  node.type = "OptionalMemberExpression" ||
  node.type = "SequenceExpression" ||
  node.type = "TaggedTemplateExpression" ||
  node.type = "BindExpression" ||
  (node.type = "UpdateExpression" && !node.prefixFlag) ||
  node.type = "TSAsExpression" ||
  node.type = "TSNonNullExpression"

/-- Embeds `getLeftSide` (utils.js:78).  The JS `||` chain over node-valued
fields short-circuits at the first present field (AST nodes are always
truthy); when every field is absent the function returns `undefined`
(`none`), it does not throw.  `node.expressions[0]` is `undefined` when the
array is empty. -/
def getLeftSide (node : Node) : Option Node :=
  match node.expressions with
  | some l => l[0]?
  | none =>
    match node.left with
    | some x => some x
    | none =>
    match node.test with
    | some x => some x
    | none =>
    match node.callee with
    | some x => some x
    | none =>
    match node.object with
    | some x => some x
    | none =>
    match node.tag with
    | some x => some x
    | none =>
    match node.argument with
    | some x => some x
    | none => node.expression

/-- One step of a structural path: a field name or an array index. -/
inductive PathPart : Type where
  | fld : String → PathPart
  | idx : Nat → PathPart
deriving DecidableEq

/-- Embeds `getLeftSidePathName` (utils.js:93).  Unlike `getLeftSide` it
tries `object` before `callee`, and it throws (`Except.error`) when no
recognized field is present. -/
def getLeftSidePathName (node : Node) : Except String (List PathPart) :=
  match node.expressions with
  | some _ => .ok [.fld "expressions", .idx 0]
  | none =>
    if node.left.isSome then .ok [.fld "left"]
    else if node.test.isSome then .ok [.fld "test"]
    else if node.object.isSome then .ok [.fld "object"]
    else if node.callee.isSome then .ok [.fld "callee"]
    else if node.tag.isSome then .ok [.fld "tag"]
    else if node.argument.isSome then .ok [.fld "argument"]
    else if node.expression.isSome then .ok [.fld "expression"]
    else .error "Unexpected node has no left side"

/-- A field value as seen by dynamic lookup: a node or an array of nodes. -/
inductive FieldVal : Type where
  | nodeVal : Node → FieldVal
  | listVal : List Node → FieldVal

/-- Dynamic lookup of the fields `getLeftSidePathName` can name. -/
def getField (n : Node) (s : String) : Option FieldVal :=
  if s = "expressions" then n.expressions.map .listVal
  else if s = "left" then n.left.map .nodeVal
  else if s = "test" then n.test.map .nodeVal
  else if s = "object" then n.object.map .nodeVal
  else if s = "callee" then n.callee.map .nodeVal
  else if s = "tag" then n.tag.map .nodeVal
  else if s = "argument" then n.argument.map .nodeVal
  else if s = "expression" then n.expression.map .nodeVal
  else none

/-- Follow a structural path (as returned by `getLeftSidePathName`) from a
node to the child it denotes. -/
def followPath (n : Node) : List PathPart → Option Node
  | [.fld s] =>
    match getField n s with
    | some (.nodeVal m) => some m
    | _ => none
  | [.fld s, .idx i] =>
    match getField n s with
    | some (.listVal l) => l[i]?
    | _ => none
  | _ => none

/-! ## Literal / literal-like classifier (source lines 141-173) -/

/-- Embeds `isLiteral` (utils.js:141). -/
def isLiteral (node : Node) : Bool :=
  node.type = "BooleanLiteral" ||
  node.type = "DirectiveLiteral" ||
  node.type = "Literal" ||
  node.type = "NullLiteral" ||
  node.type = "NumericLiteral" ||
  node.type = "BigIntLiteral" ||
  node.type = "RegExpLiteral" ||
  node.type = "StringLiteral" ||
  node.type = "TemplateLiteral" ||
  node.type = "TSTypeLiteral" ||
  node.type = "JSXText"

/-- Embeds the regex `/^[A-Z_]+$/` used on identifier names: one or more
characters, each an ASCII capital letter or an underscore.  Testing the
regex against an absent `name` field (JS coerces `undefined` to the string
`"undefined"`, which does not match) yields false. -/
def screamingSnake : Option String → Bool
  | some s => s.length > 0 && s.data.all (fun c => ('A' ≤ c && c ≤ 'Z') || c = '_')
  | none => false

mutual

/-- Embeds `isLiteralLikeValue` (utils.js:157): literals, screaming-snake
identifiers, arrays of hole-free literal-like elements, objects whose every
property is non-computed with a present literal-like value. -/
def isLiteralLikeValue (node : Node) : Bool :=
  isLiteral node ||
  (node.type = "Identifier" && screamingSnake node.name) ||
  (node.type = "ArrayExpression" && literalLikeElements node.elements) ||
  (node.type = "ObjectExpression" && literalLikeProps node.properties)
termination_by sizeOf node
decreasing_by
  · exact sizeOf_elementsField_lt node
  · exact sizeOf_propertiesField_lt node

/-- The `elements.every` callback of `isLiteralLikeValue` (utils.js:162):
`element !== null && isLiteralLikeValue(element)`, short-circuiting like
`Array.prototype.every`. -/
def literalLikeElements : List (Option Node) → Bool
  | [] => true
  | none :: _ => false
  | some x :: rest => isLiteralLikeValue x && literalLikeElements rest
termination_by l => sizeOf l
decreasing_by
  all_goals first | (simp; omega) | simp | omega

/-- The `properties.every` callback of `isLiteralLikeValue` (utils.js:166):
`!property.computed && property.value && isLiteralLikeValue(property.value)`
(an absent property value is falsy). -/
def literalLikeProps : List (ObjectProp Node) → Bool
  | [] => true
  | ⟨cmp, _, none⟩ :: rest => (!cmp && false) && literalLikeProps rest
  | ⟨cmp, _, some v⟩ :: rest => (!cmp && isLiteralLikeValue v) && literalLikeProps rest
termination_by l => sizeOf l
decreasing_by
  all_goals first | (simp; omega) | simp | omega

end

/-! ## Dialect-normalizing literal tests and function-shape predicates
(source lines 175-223) -/

/-- Embeds `isNumericLiteral` (utils.js:175): dedicated kind, or generic
`Literal` whose runtime value has `typeof` number.  Reading `node.value`
on a node without that field yields `undefined`, whose `typeof` is not
`"number"`, so `none` correctly gives false. -/
def isNumericLiteral (node : Node) : Bool :=
  node.type = "NumericLiteral" ||
  (node.type = "Literal" && node.value = some JSVal.num)

/-- Embeds `isStringLiteral` (utils.js:182). -/
def isStringLiteral (node : Node) : Bool :=
  node.type = "StringLiteral" ||
  (node.type = "Literal" && node.value = some JSVal.str)

/-- Embeds `isFunctionOrArrowExpression` (utils.js:193). -/
def isFunctionOrArrowExpression (node : Node) : Bool :=
  node.type = "FunctionExpression" || node.type = "ArrowFunctionExpression"

/-- Embeds `isFunctionOrArrowExpressionWithBody` (utils.js:200).  An arrow
qualifies only when `node.body.type === "BlockStatement"`; when `body` is an
array (`many`) its `type` is `undefined` and the comparison is false. -/
def isFunctionOrArrowExpressionWithBody (node : Node) : Bool :=
  node.type = "FunctionExpression" ||
  (node.type = "ArrowFunctionExpression" &&
    (match node.body with
     | some (.one b) => b.type = "BlockStatement"
     | _ => false))

/-- Embeds `isTemplateLiteral` (utils.js:208). -/
def isTemplateLiteral (node : Node) : Bool :=
  node.type = "TemplateLiteral"

/-- Embeds `isAngularTestWrapper` (utils.js:214): a (optional-)call whose
callee is one of the identifiers `async`, `inject`, `fakeAsync`. -/
def isAngularTestWrapper (node : Node) : Bool :=
  (node.type = "CallExpression" || node.type = "OptionalCallExpression") &&
  (match node.callee with
   | some c =>
     c.type = "Identifier" &&
     (c.name = some "async" || c.name = some "inject" || c.name = some "fakeAsync")
   | none => false)

/-! ## Testing-framework call recognizer (source lines 345-401) -/

/-- Embeds the regex `unitTestRe = /^(skip|[fx]?(it|describe|test))$/`
(utils.js:345) as the finite set of strings the anchored regex accepts.
Testing an absent name (`undefined` coerces to `"undefined"`) is false. -/
def unitTestRe : Option String → Bool
  | some s =>
    s = "skip" || s = "it" || s = "describe" || s = "test" ||
    s = "fit" || s = "fdescribe" || s = "ftest" ||
    s = "xit" || s = "xdescribe" || s = "xtest"
  | none => false

/-- Embeds `isSkipOrOnlyBlock` (utils.js:347): callee is a (optional-)member
whose object is an identifier matching `unitTestRe` and whose property is
the identifier `only` or `skip`. -/
def isSkipOrOnlyBlock (node : Node) : Bool :=
  match node.callee with
  | some c =>
    (c.type = "MemberExpression" || c.type = "OptionalMemberExpression") &&
    (match c.object, c.property with
     | some o, some p =>
       o.type = "Identifier" && p.type = "Identifier" &&
       unitTestRe o.name &&
       (p.name = some "only" || p.name = some "skip")
     | _, _ => false)
  | none => false

/-- Embeds `isUnitTestSetUp` (utils.js:359): callee is an identifier
matching `/^(before|after)(Each|All)$/` and the call has one argument. -/
def isUnitTestSetUp (n : Node) : Bool :=
  (match n.callee with
   | some c =>
     c.type = "Identifier" &&
     (c.name = some "beforeEach" || c.name = some "beforeAll" ||
      c.name = some "afterEach" || c.name = some "afterAll")
   | none => false) &&
  n.arguments.length = 1

/-- Embeds `isTestCall` (utils.js:369).  The only recursive call is
`isTestCall(parent)`, which leaves the parent of `parent` `undefined`, so
the recursion depth is at most one. -/
def isTestCall (n : Node) (parent : Option Node) : Bool :=
  if n.type ≠ "CallExpression" then false
  else if n.arguments.length = 1 then
    if isAngularTestWrapper n &&
       (match parent with
        | some p => isTestCall p none
        | none => false) then
      match n.arguments[0]? with
      | some a => isFunctionOrArrowExpression a
      | none => false
    else if isUnitTestSetUp n then
      match n.arguments[0]? with
      | some a => isAngularTestWrapper a
      | none => false
    else false
  else if n.arguments.length = 2 || n.arguments.length = 3 then
    if ((match n.callee with
         | some c => c.type = "Identifier" && unitTestRe c.name
         | none => false) || isSkipOrOnlyBlock n) &&
       (match n.arguments[0]? with
        | some a0 => isTemplateLiteral a0 || isStringLiteral a0
        | none => false) then
      if (match n.arguments[2]? with
          | some a2 => !isNumericLiteral a2
          | none => false) then false
      else
        (if n.arguments.length = 2 then
           match n.arguments[1]? with
           | some a1 => isFunctionOrArrowExpression a1
           | none => false
         else
           match n.arguments[1]? with
           | some a1 => isFunctionOrArrowExpressionWithBody a1 && a1.params.length ≤ 1
           | none => false) ||
        (match n.arguments[1]? with
         | some a1 => isAngularTestWrapper a1
         | none => false)
    else false
  else false
termination_by parent.isSome.toNat
decreasing_by
  all_goals simp [Option.isSome, Bool.toNat]

/-! ## Simple template literal detector (source lines 449-498)
Field accesses that would raise a `TypeError` in JS (reading `.type` or
`.comments` off `undefined`) are embedded as `Except.error ()`. -/

/-- Embeds the `while` loop of `isSimpleTemplateLiteral` (utils.js:470-487)
on a member head: check the property key kind, step to the object, check
its comments, repeat; after the loop the root must be an identifier or
`this`.  Comments of the initial head are checked by the caller. -/
def chainWalk (head : Node) : Except Unit Bool :=
  if head.type = "MemberExpression" || head.type = "OptionalMemberExpression" then
    match head.property with
    | none => .error ()
    | some p =>
      if !(p.type = "Identifier" || p.type = "Literal" ||
           p.type = "StringLiteral" || p.type = "NumericLiteral") then
        .ok false
      else
        match ho : head.object with
        | none => .error ()
        | some o =>
          if o.comments then .ok false
          else chainWalk o
  else
    .ok (head.type = "Identifier" || head.type = "ThisExpression")
termination_by sizeOf head
decreasing_by
  exact sizeOf_lt_of_object ho

/-- Embeds the `every` callback of `isSimpleTemplateLiteral` (utils.js:454):
reject commented expressions, accept identifiers and `this`, walk member
chains, reject everything else. -/
def interpolationOk (expr : Node) : Except Unit Bool :=
  if expr.comments then .ok false
  else if expr.type = "Identifier" || expr.type = "ThisExpression" then .ok true
  else if expr.type = "MemberExpression" || expr.type = "OptionalMemberExpression" then
    chainWalk expr
  else .ok false

/-- The `expressions.every` loop of `isSimpleTemplateLiteral`: short-circuit
on the first false, propagate a thrown `TypeError`. -/
def allInterpolationsOk : List Node → Except Unit Bool
  | [] => .ok true
  | e :: rest =>
    match interpolationOk e with
    | .error u => .error u
    | .ok false => .ok false
    | .ok true => allInterpolationsOk rest

/-- Embeds `isSimpleTemplateLiteral` (utils.js:449).  Reading
`node.expressions.length` off a node without the field throws. -/
def isSimpleTemplateLiteral (node : Node) : Except Unit Bool :=
  match node.expressions with
  | none => .error ()
  | some exprs =>
    if exprs.length = 0 then .ok false
    else allInterpolationsOk exprs

/-! ## Last-statement predicate (source lines 672-682) -/

/-- Embeds `isLastStatement` (utils.js:672), with the path cursor given as
the parent node (or `none` at the root) and the focus node.
`(parent.body || parent.consequent)` picks `body` when present (arrays and
nodes are both truthy); calling `.filter` on `undefined` or on a single
node rather than an array throws a `TypeError` (`Except.error`).  The JS
`===` between the last remaining statement and the focus node is reference
identity, embedded as equality of node ids. -/
def isLastStatement (parent : Option Node) (node : Node) : Except Unit Bool :=
  match parent with
  | none => .ok true
  | some p =>
    match (match p.body with
           | some v => some v
           | none => p.consequent) with
    | none => .error ()
    | some (.one _) => .error ()
    | some (.many l) =>
      let body := l.filter (fun stmt => stmt.type ≠ "EmptyStatement")
      .ok (match body.getLast? with
           | some last => last.id == node.id
           | none => false)

/-! ## Simple call argument classifier (source lines 939-1014) -/

/-- Embeds the `regexpPattern` expression of `isSimpleCallArgument`
(utils.js:947): the regex pattern carried by a generic `Literal` with a
regex side record, or by a dedicated `RegExpLiteral`; `some` exactly when
the JS expression is truthy (an empty pattern string is falsy). -/
def regexpPattern (node : Node) : Option String :=
  if node.type = "Literal" then
    match node.regex with
    | some p => if p = "" then none else some p
    | none => none
  else if node.type = "RegExpLiteral" then
    match node.pattern with
    | some p => if p = "" then none else some p
    | none => none
  else none

/-- The guard `regexpPattern && regexpPattern.length > 5` (utils.js:951). -/
def longRegexPattern (node : Node) : Bool :=
  match regexpPattern node with
  | some p => p.length > 5
  | none => false

mutual

/-- Embeds `isSimpleCallArgument` (utils.js:939): hard cutoff at depth 3,
regex patterns longer than 5 are never simple, a fixed list of base-true
kinds, containers recurse at `depth + 2`, call callees, member parts and
unary/non-null operands recurse at `depth + 1`. -/
def isSimpleCallArgument (node : Node) (depth : Nat) : Bool :=
  if depth ≥ 3 then false
  else if longRegexPattern node then false
  else if node.type = "Literal" ||
          node.type = "BigIntLiteral" ||
          node.type = "BooleanLiteral" ||
          node.type = "NullLiteral" ||
          node.type = "NumericLiteral" ||
          node.type = "RegExpLiteral" ||
          node.type = "StringLiteral" ||
          node.type = "Identifier" ||
          node.type = "ThisExpression" ||
          node.type = "Super" ||
          node.type = "PrivateName" ||
          node.type = "ArgumentPlaceholder" ||
          node.type = "Import" then true
  else if node.type = "TemplateLiteral" then
    match hexp : node.expressions with
    | some l => allSimpleArgs l (depth + 2)
    | none => false
  else if node.type = "ObjectExpression" then
    allSimpleProps node.properties (depth + 2)
  else if node.type = "ArrayExpression" then
    allSimpleElements node.elements (depth + 2)
  else if node.type = "CallExpression" ||
          node.type = "OptionalCallExpression" ||
          node.type = "NewExpression" then
    (match hc : node.callee with
     | some c => isSimpleCallArgument c (depth + 1)
     | none => false) &&
    allSimpleArgs node.arguments (depth + 2)
  else if node.type = "MemberExpression" ||
          node.type = "OptionalMemberExpression" then
    (match ho : node.object with
     | some o => isSimpleCallArgument o (depth + 1)
     | none => false) &&
    (match hpr : node.property with
     | some pr => isSimpleCallArgument pr (depth + 1)
     | none => false)
  else if node.type = "UnaryExpression" &&
          (node.operator = some "!" || node.operator = some "-") then
    match ha2 : node.argument with
    | some a => isSimpleCallArgument a (depth + 1)
    | none => false
  else if node.type = "TSNonNullExpression" then
    match he2 : node.expression with
    | some e => isSimpleCallArgument e (depth + 1)
    | none => false
  else false
termination_by sizeOf node
decreasing_by
  · exact sizeOf_expressionsList_lt hexp
  · exact sizeOf_propertiesField_lt node
  · exact sizeOf_elementsField_lt node
  · exact sizeOf_lt_of_callee hc
  · exact sizeOf_argumentsField_lt node
  · exact sizeOf_lt_of_object ho
  · exact sizeOf_lt_of_property hpr
  · exact sizeOf_lt_of_argument ha2
  · exact sizeOf_lt_of_expression he2

/-- The `every(plusTwo)` walk over template-literal expressions and call
arguments (utils.js:974, 992), judged at the caller-selected depth. -/
def allSimpleArgs : List Node → Nat → Bool
  | [], _ => true
  | x :: rest, d => isSimpleCallArgument x d && allSimpleArgs rest d
termination_by l => sizeOf l
decreasing_by
  all_goals first | (simp; omega) | simp | omega

/-- The `properties.every` callback of `isSimpleCallArgument` (utils.js:978):
`!p.computed && (p.shorthand || (p.value && plusTwo(p.value)))` (an absent
property value is falsy). -/
def allSimpleProps : List (ObjectProp Node) → Nat → Bool
  | [], _ => true
  | ⟨cmp, sh, none⟩ :: rest, d => (!cmp && (sh || false)) && allSimpleProps rest d
  | ⟨cmp, sh, some v⟩ :: rest, d =>
    (!cmp && (sh || isSimpleCallArgument v d)) && allSimpleProps rest d
termination_by l _ => sizeOf l
decreasing_by
  all_goals first | (simp; omega) | simp | omega

/-- The `elements.every` callback of `isSimpleCallArgument` (utils.js:984):
`x === null || plusTwo(x)`. -/
def allSimpleElements : List (Option Node) → Nat → Bool
  | [], _ => true
  | none :: rest, d => allSimpleElements rest d
  | some x :: rest, d => isSimpleCallArgument x d && allSimpleElements rest d
termination_by l _ => sizeOf l
decreasing_by
  all_goals first | (simp; omega) | simp | omega

end

/-! ## Blank-line scanner (source lines 1050-1114) -/

/-- Embeds the character loop of `hasTopLevelBlankLines` (utils.js:1085):
track curly-brace nesting, and at nesting level exactly 1 report true on a
second newline whose distance from the previous newline was covered only by
characters that did not reset `newlineFound` at level 1 (spaces, or any
characters scanned while the nesting level was not 1, braces included). -/
def scanTopLevelBlankLines : List Char → Int → Bool → Bool
  | [], _, _ => false
  | c :: rest, curlyState, newlineFound =>
    if c = '\x7b' then scanTopLevelBlankLines rest (curlyState + 1) newlineFound
    else if c = '\x7d' then scanTopLevelBlankLines rest (curlyState - 1) newlineFound
    else if curlyState = 1 then
      if c = '\n' && newlineFound then true
      else if c = '\n' then scanTopLevelBlankLines rest curlyState true
      else if c ≠ ' ' then scanTopLevelBlankLines rest curlyState false
      else scanTopLevelBlankLines rest curlyState newlineFound
    else scanTopLevelBlankLines rest curlyState newlineFound

/-- Embeds `hasTopLevelBlankLines` (utils.js:1085), applied to the raw text
of a block including its outer braces. -/
def hasTopLevelBlankLines (source : String) : Bool :=
  scanTopLevelBlankLines source.data 0 false

/-! ## Concrete nodes used in the claim theorems -/

/-- An identifier node. -/
def identN (s : String) : Node := .mk { type := "Identifier", name := some s }

/-- A string literal (babel spelling). -/
def strLit : Node := .mk { type := "StringLiteral" }

/-- A block statement. -/
def blockStmt : Node := .mk { type := "BlockStatement" }

/-- An arrow function with a block body and no parameters. -/
def arrowBlock : Node := .mk { type := "ArrowFunctionExpression", body := some (.one blockStmt) }

/-- A function expression with no parameters. -/
def funcExpr : Node := .mk { type := "FunctionExpression", body := some (.one blockStmt) }

/-- A numeric literal (babel spelling). -/
def numLit : Node := .mk { type := "NumericLiteral" }

/-- A call expression. -/
def mkCall (c : Node) (args : List Node) : Node :=
  .mk { type := "CallExpression", callee := some c, arguments := args }

/-- A member expression. -/
def mkMember (o p : Node) : Node :=
  .mk { type := "MemberExpression", object := some o, property := some p }

/-- An array expression with the given elements (`none` is a hole). -/
def mkArray (els : List (Option Node)) : Node :=
  .mk { type := "ArrayExpression", elements := els }

/-- An object expression with the given properties. -/
def mkObject (props : List (ObjectProp Node)) : Node :=
  .mk { type := "ObjectExpression", properties := props }

/-- A `BindExpression` node (`a::b` carries both `object` and `callee`). -/
def bindEx : Node :=
  .mk { type := "BindExpression", object := some (identN "b"), callee := some (identN "a") }

/-- A `BinaryExpression` node carrying none of the left-side fields. -/
def bareBin : Node := .mk { type := "BinaryExpression" }

/-! ## C1: agreement of the two left-side resolvers -/

/-- C1 (counterexample): the claim says `getLeftSide` and
`getLeftSidePathName` select the same field on every node where both
succeed.  On a node carrying both an `object` and a `callee` field (for
example a `BindExpression`), `getLeftSide` picks `callee` while
`getLeftSidePathName` picks `object`, so following the returned path does
not reach the node `getLeftSide` returns. -/
theorem c1_counterexample :
    getLeftSidePathName bindEx = .ok [.fld "object"] ∧
    followPath bindEx [.fld "object"] = some (identN "b") ∧
    getLeftSide bindEx = some (identN "a") ∧
    followPath bindEx [.fld "object"] ≠ getLeftSide bindEx := by
  refine ⟨rfl, rfl, rfl, ?_⟩
  intro h
  have h2 : some (identN "b") = some (identN "a") := h
  have h3 := congrArg (Option.map Node.name) h2
  simp [identN, Node.name, Node.fields] at h3

/-- C1 (amended): on every node that does not carry both an `object` and a
`callee` field, the child reached by following the path returned by
`getLeftSidePathName` is exactly the node returned by `getLeftSide`
(including the degenerate empty-`expressions` case, where both are absent);
when both fields are present the resolvers diverge as in the
counterexample. -/
theorem c1_amended_agreement (n : Node) (path : List PathPart)
    (hpath : getLeftSidePathName n = .ok path)
    (hoc : n.object = none ∨ n.callee = none) :
    followPath n path = getLeftSide n := by
  cases hexp : n.expressions with
  | some l =>
    simp [getLeftSidePathName, hexp] at hpath
    subst hpath
    simp [followPath, getField, getLeftSide, hexp]
  | none =>
    cases hl : n.left with
    | some x =>
      simp [getLeftSidePathName, hexp, hl] at hpath
      subst hpath
      simp [followPath, getField, getLeftSide, hexp, hl]
    | none =>
      cases ht : n.test with
      | some x =>
        simp [getLeftSidePathName, hexp, hl, ht] at hpath
        subst hpath
        simp [followPath, getField, getLeftSide, hexp, hl, ht]
      | none =>
        cases ho : n.object with
        | some x =>
          have hc : n.callee = none := by
            cases hoc with
            | inl h => rw [h] at ho; exact absurd ho (by simp)
            | inr h => exact h
          simp [getLeftSidePathName, hexp, hl, ht, ho] at hpath
          subst hpath
          simp [followPath, getField, getLeftSide, hexp, hl, ht, ho, hc]
        | none =>
          cases hc : n.callee with
          | some x =>
            simp [getLeftSidePathName, hexp, hl, ht, ho, hc] at hpath
            subst hpath
            simp [followPath, getField, getLeftSide, hexp, hl, ht, ho, hc]
          | none =>
            cases htg : n.tag with
            | some x =>
              simp [getLeftSidePathName, hexp, hl, ht, ho, hc, htg] at hpath
              subst hpath
              simp [followPath, getField, getLeftSide, hexp, hl, ht, ho, hc, htg]
            | none =>
              cases ha : n.argument with
              | some x =>
                simp [getLeftSidePathName, hexp, hl, ht, ho, hc, htg, ha] at hpath
                subst hpath
                simp [followPath, getField, getLeftSide, hexp, hl, ht, ho, hc, htg, ha]
              | none =>
                cases he : n.expression with
                | some x =>
                  simp [getLeftSidePathName, hexp, hl, ht, ho, hc, htg, ha, he] at hpath
                  subst hpath
                  simp [followPath, getField, getLeftSide, hexp, hl, ht, ho, hc, htg, ha, he]
                | none =>
                  simp [getLeftSidePathName, hexp, hl, ht, ho, hc, htg, ha, he] at hpath

/-- C1 (witness): the amended agreement applied to a binary expression with
a `left` child. -/
theorem c1_witness :
    followPath (Node.mk { type := "BinaryExpression", left := some (identN "a") }) [.fld "left"] =
      getLeftSide (Node.mk { type := "BinaryExpression", left := some (identN "a") }) :=
  c1_amended_agreement _ _ rfl (Or.inl rfl)

/-! ## C6: behavior of the resolvers when no recognized field is present -/

/-- C6 (counterexample): the claim says both resolvers abort on a
`hasNakedLeftSide` node with none of the recognized fields.  The
path-returning resolver indeed throws, but the node-returning resolver
returns `undefined` (`none`) as an ordinary value — its JS body is a plain
`||` chain with no `throw` — so it does not abort. -/
theorem c6_counterexample :
    hasNakedLeftSide bareBin = true ∧
    getLeftSidePathName bareBin = .error "Unexpected node has no left side" ∧
    getLeftSide bareBin = none := by
  refine ⟨by decide, rfl, rfl⟩

/-- C6 (amended): on every node flagged `hasNakedLeftSide` on which none of
the recognized left-side fields is present, `getLeftSidePathName` throws the
internal-invariant error, while `getLeftSide` silently returns `undefined`. -/
theorem c6_amended_error_behavior (n : Node)
    (hflag : hasNakedLeftSide n = true)
    (h1 : n.expressions = none) (h2 : n.left = none) (h3 : n.test = none)
    (h4 : n.callee = none) (h5 : n.object = none) (h6 : n.tag = none)
    (h7 : n.argument = none) (h8 : n.expression = none) :
    getLeftSidePathName n = .error "Unexpected node has no left side" ∧
    getLeftSide n = none := by
  constructor
  · simp [getLeftSidePathName, h1, h2, h3, h4, h5, h6, h7, h8]
  · simp [getLeftSide, h1, h2, h3, h4, h5, h6, h7, h8]

/-- C6 (witness): the amended error behavior at a bare binary expression. -/
theorem c6_witness :
    getLeftSidePathName bareBin = .error "Unexpected node has no left side" ∧
    getLeftSide bareBin = none :=
  c6_amended_error_behavior bareBin (by decide) rfl rfl rfl rfl rfl rfl rfl rfl

/-! ## C2 and C3: the bounded-depth simple-call-argument classifier -/

theorem allSimpleArgs_eq_all (l : List Node) (d : Nat) :
    allSimpleArgs l d = l.all (fun x => isSimpleCallArgument x d) := by
  induction l with
  | nil => simp [allSimpleArgs]
  | cons x rest ih => simp [allSimpleArgs, ih]

theorem allSimpleProps_eq_all (l : List (ObjectProp Node)) (d : Nat) :
    allSimpleProps l d =
      l.all (fun p => !p.computed &&
        (p.shorthand ||
         (match p.value with
          | some v => isSimpleCallArgument v d
          | none => false))) := by
  induction l with
  | nil => simp [allSimpleProps]
  | cons p rest ih =>
    cases p with
    | mk cmp sh value => cases value <;> simp [allSimpleProps, ih]

theorem allSimpleElements_eq_all (l : List (Option Node)) (d : Nat) :
    allSimpleElements l d =
      l.all (fun x =>
        match x with
        | none => true
        | some e => isSimpleCallArgument e d) := by
  induction l with
  | nil => simp [allSimpleElements]
  | cons x rest ih => cases x <;> simp [allSimpleElements, ih]

/-- C2 (counterexample): the claim promises `isSimpleCallArgument(node, 0)
= true` for every node of kind `Literal`, but a `Literal` carrying a regex
side record with a pattern longer than 5 characters (the standard ESTree
encoding of a regex literal such as `/abcdef/`) is rejected. -/
theorem c2_counterexample :
    (Node.mk { type := "Literal", regex := some "abcdef" }).type = "Literal" ∧
    isSimpleCallArgument (Node.mk { type := "Literal", regex := some "abcdef" }) 0 = false := by
  constructor
  · rfl
  · rw [isSimpleCallArgument.eq_def]
    decide

/-- C2 (amended): `isSimpleCallArgument(x, depth)` is false for every node
once `depth >= 3`; and every node of a literal kind (`Literal`,
`BigIntLiteral`, `BooleanLiteral`, `NullLiteral`, `NumericLiteral`,
`RegExpLiteral`, `StringLiteral`) is simple at depth 0 provided the regex
pattern it carries, if any, is at most 5 characters long. -/
theorem c2_amended_simple_call_bounds :
    (∀ (x : Node) (d : Nat), 3 ≤ d → isSimpleCallArgument x d = false) ∧
    (∀ n : Node,
      (n.type = "Literal" ∨ n.type = "BigIntLiteral" ∨ n.type = "BooleanLiteral" ∨
       n.type = "NullLiteral" ∨ n.type = "NumericLiteral" ∨ n.type = "RegExpLiteral" ∨
       n.type = "StringLiteral") →
      (∀ p, regexpPattern n = some p → p.length ≤ 5) →
      isSimpleCallArgument n 0 = true) := by
  constructor
  · intro x d hd
    rw [isSimpleCallArgument.eq_def]
    simp [hd]
  · intro n htype hreg
    have hlr : longRegexPattern n = false := by
      unfold longRegexPattern
      cases hr : regexpPattern n with
      | none => simp
      | some p =>
        have hle := hreg p hr
        simp
        omega
    rw [isSimpleCallArgument.eq_def]
    rcases htype with h | h | h | h | h | h | h <;> simp [h, hlr]

/-- C2 (witness): the amended bounds applied at depth 3 to an identifier
and at depth 0 to a short regex literal. -/
theorem c2_witness :
    isSimpleCallArgument (identN "x") 3 = false ∧
    isSimpleCallArgument (Node.mk { type := "RegExpLiteral", pattern := some "abc" }) 0 = true := by
  constructor
  · exact c2_amended_simple_call_bounds.1 (identN "x") 3 (by decide)
  · refine c2_amended_simple_call_bounds.2 _ (by simp [Node.type, Node.fields]) ?_
    intro p hp
    simp [regexpPattern, Node.type, Node.fields, Node.pattern] at hp
    subst hp
    decide

/-- C3 (confirmed): the asymmetric depth costing of `isSimpleCallArgument`:
below the cutoff, call-like nodes judge the callee at `depth + 1` and every
argument at `depth + 2`; member-like nodes judge object and property at
`depth + 1`; template-literal interpolations, object-property values and
array elements are judged at `depth + 2`.  Consequently `foo(a, b)` is
simple at depth 0 while `foo(bar(baz(qux)))` is not. -/
theorem c3_depth_costing :
    (∀ (n c : Node) (d : Nat), d < 3 →
      (n.type = "CallExpression" ∨ n.type = "OptionalCallExpression" ∨
       n.type = "NewExpression") →
      n.callee = some c →
      isSimpleCallArgument n d =
        (isSimpleCallArgument c (d + 1) &&
         n.arguments.all (fun a => isSimpleCallArgument a (d + 2)))) ∧
    (∀ (n o p : Node) (d : Nat), d < 3 →
      (n.type = "MemberExpression" ∨ n.type = "OptionalMemberExpression") →
      n.object = some o → n.property = some p →
      isSimpleCallArgument n d =
        (isSimpleCallArgument o (d + 1) && isSimpleCallArgument p (d + 1))) ∧
    (∀ (n : Node) (l : List Node) (d : Nat), d < 3 →
      n.type = "TemplateLiteral" → n.expressions = some l →
      isSimpleCallArgument n d = l.all (fun e => isSimpleCallArgument e (d + 2))) ∧
    (∀ (n : Node) (d : Nat), d < 3 → n.type = "ObjectExpression" →
      isSimpleCallArgument n d =
        n.properties.all (fun p => !p.computed &&
          (p.shorthand ||
           (match p.value with
            | some v => isSimpleCallArgument v (d + 2)
            | none => false)))) ∧
    (∀ (n : Node) (d : Nat), d < 3 → n.type = "ArrayExpression" →
      isSimpleCallArgument n d =
        n.elements.all (fun x =>
          match x with
          | none => true
          | some e => isSimpleCallArgument e (d + 2))) ∧
    isSimpleCallArgument (mkCall (identN "foo") [identN "a", identN "b"]) 0 = true ∧
    isSimpleCallArgument
      (mkCall (identN "foo")
        [mkCall (identN "bar") [mkCall (identN "baz") [identN "qux"]]]) 0 = false := by
  refine ⟨?_, ?_, ?_, ?_, ?_, ?_, ?_⟩
  · intro n c d hd htype hc
    have hd3 : ¬ 3 ≤ d := by omega
    rw [isSimpleCallArgument.eq_def]
    rcases htype with h | h | h <;>
      simp [h, hd3, longRegexPattern, regexpPattern, allSimpleArgs_eq_all] <;>
      split <;> simp_all
  · intro n o p d hd htype ho hp
    have hd3 : ¬ 3 ≤ d := by omega
    rw [isSimpleCallArgument.eq_def]
    rcases htype with h | h <;>
      simp [h, hd3, longRegexPattern, regexpPattern] <;>
      split <;> (try split) <;> simp_all
  · intro n l d hd htype hexp
    have hd3 : ¬ 3 ≤ d := by omega
    rw [isSimpleCallArgument.eq_def]
    simp [htype, hd3, longRegexPattern, regexpPattern]
    split <;> simp_all [allSimpleArgs_eq_all]
  · intro n d hd htype
    have hd3 : ¬ 3 ≤ d := by omega
    rw [isSimpleCallArgument.eq_def]
    simp [htype, hd3, longRegexPattern, regexpPattern, allSimpleProps_eq_all]
  · intro n d hd htype
    have hd3 : ¬ 3 ≤ d := by omega
    rw [isSimpleCallArgument.eq_def]
    simp [htype, hd3, longRegexPattern, regexpPattern, allSimpleElements_eq_all]
  · simp [isSimpleCallArgument, allSimpleArgs, mkCall, identN, Node.type, Node.fields,
      Node.arguments, Node.callee, longRegexPattern, regexpPattern, Node.regex, Node.pattern]
  · simp [isSimpleCallArgument, allSimpleArgs, mkCall, identN, Node.type, Node.fields,
      Node.arguments, Node.callee, longRegexPattern, regexpPattern, Node.regex, Node.pattern]

/-- C3 (witness): the call-costing equation applied to `f(x)` at depth 0. -/
theorem c3_witness :
    isSimpleCallArgument (mkCall (identN "f") [identN "x"]) 0 =
      (isSimpleCallArgument (identN "f") 1 &&
       [identN "x"].all (fun a => isSimpleCallArgument a 2)) :=
  c3_depth_costing.1 (mkCall (identN "f") [identN "x"]) (identN "f") 0 (by decide)
    (Or.inl rfl) rfl

/-! ## C5: the blank-line scanner -/

/-- C5 (code bug): on the block text `"{\n {a}\n}"` — three lines `{`,
` {a}`, `}` with no blank line anywhere — the scanner returns true, because
the `newlineFound` flag set by the first newline is never reset: the inner
braces are consumed by the depth-tracking branch and the characters between
them are scanned at nesting level 2.  The claim (and the function's own
documentation) require two newlines with only spaces between them.  The
second conjunct certifies, by enumeration, that no two newline positions in
this text have only spaces strictly between them; the last two conjuncts
check the claim's own two examples, on which the scanner does behave as
documented. -/
theorem c5_code_bug_eval :
    hasTopLevelBlankLines "\x7b\n \x7ba\x7d\n\x7d" = true ∧
    ((List.range 8).all fun i =>
      ("\x7b\n \x7ba\x7d\n\x7d".data[i]! != '\n') || (i == 1) || (i == 6)) = true ∧
    "\x7b\n \x7ba\x7d\n\x7d".data[3]! = '\x7b' ∧
    hasTopLevelBlankLines "\x7b\n\n  x = 1;\n\x7d" = true ∧
    hasTopLevelBlankLines "\x7b\n  if (true) \x7b\n\n   x = y\n  \x7d\n\x7d" = false := by
  refine ⟨by decide, by decide, by decide, by decide⟩

/-! ## C7: totality of `isLastStatement` -/

/-- C7 (counterexample): the claim says `isLastStatement` never raises,
including on parents whose statement container is a single-branch
consequent.  On an if-statement parent, whose `consequent` is a single
node, the JS code calls `.filter` on a non-array and throws a `TypeError`. -/
theorem c7_counterexample :
    isLastStatement (some (Node.mk { type := "IfStatement", consequent := some (.one blockStmt) }))
      (identN "x") = .error () := rfl

/-- C7 (amended): `isLastStatement` returns a definite boolean at the root
and whenever the parent carries an array-valued `body`, or no `body` and an
array-valued `consequent`; on any other parent (neither field, or a
single-node container) it throws. -/
theorem c7_amended_totality :
    (∀ n : Node, isLastStatement none n = .ok true) ∧
    (∀ (p n : Node) (l : List Node), p.body = some (.many l) →
      ∃ b, isLastStatement (some p) n = .ok b) ∧
    (∀ (p n : Node) (l : List Node), p.body = none → p.consequent = some (.many l) →
      ∃ b, isLastStatement (some p) n = .ok b) := by
  refine ⟨fun n => rfl, ?_, ?_⟩
  · intro p n l hb
    refine ⟨(match (l.filter fun stmt => stmt.type ≠ "EmptyStatement").getLast? with
             | some last => last.id == n.id
             | none => false), ?_⟩
    simp [isLastStatement, hb]
  · intro p n l hb hc
    refine ⟨(match (l.filter fun stmt => stmt.type ≠ "EmptyStatement").getLast? with
             | some last => last.id == n.id
             | none => false), ?_⟩
    simp [isLastStatement, hb, hc]

/-- C7 (witness): the amended totality applied to a program parent with a
one-statement body. -/
theorem c7_witness :
    ∃ b, isLastStatement (some (Node.mk { type := "Program", body := some (.many [identN "x"]) }))
      (identN "x") = .ok b :=
  c7_amended_totality.2.1 _ (identN "x") [identN "x"] rfl

/-! ## C9 and C10: algebra of literal-likeness -/

theorem literalLikeElements_eq_all (l : List (Option Node)) :
    literalLikeElements l =
      l.all (fun x =>
        match x with
        | none => false
        | some e => isLiteralLikeValue e) := by
  induction l with
  | nil => simp [literalLikeElements]
  | cons x rest ih => cases x <;> simp [literalLikeElements, ih]

theorem literalLikeProps_eq_all (l : List (ObjectProp Node)) :
    literalLikeProps l =
      l.all (fun p => !p.computed &&
        (match p.value with
         | some v => isLiteralLikeValue v
         | none => false)) := by
  induction l with
  | nil => simp [literalLikeProps]
  | cons p rest ih =>
    cases p with
    | mk cmp sh value => cases value <;> simp [literalLikeProps, ih]

theorem isLiteralLikeValue_mkArray (els : List (Option Node)) :
    isLiteralLikeValue (mkArray els) = literalLikeElements els := by
  rw [isLiteralLikeValue.eq_def]
  simp [mkArray, isLiteral, screamingSnake, Node.type, Node.name, Node.elements,
    Node.properties, Node.fields]

theorem isLiteralLikeValue_mkObject (props : List (ObjectProp Node)) :
    isLiteralLikeValue (mkObject props) = literalLikeProps props := by
  rw [isLiteralLikeValue.eq_def]
  simp [mkObject, isLiteral, screamingSnake, Node.type, Node.name, Node.elements,
    Node.properties, Node.fields]

/-- C9 (confirmed): literal-likeness is closed under array nesting, a
computed-key object property poisons any array containing the object, and
screaming-snake-case identifiers are literal-like base cases. -/
theorem c9_literal_like_nesting :
    (∀ l : List Node, (∀ e ∈ l, isLiteralLikeValue e = true) →
      isLiteralLikeValue (mkArray (l.map some)) = true) ∧
    (∀ (pre post : List (Option Node)) (props : List (ObjectProp Node)),
      (∃ p ∈ props, p.computed = true) →
      isLiteralLikeValue (mkArray (pre ++ some (mkObject props) :: post)) = false) ∧
    (∀ s : String, 0 < s.length → (∀ c ∈ s.data, ('A' ≤ c ∧ c ≤ 'Z') ∨ c = '_') →
      isLiteralLikeValue (identN s) = true) := by
  refine ⟨?_, ?_, ?_⟩
  · intro l hl
    rw [isLiteralLikeValue_mkArray, literalLikeElements_eq_all]
    rw [List.all_eq_true]
    intro x hx
    rw [List.mem_map] at hx
    obtain ⟨e, he, rfl⟩ := hx
    simpa using hl e he
  · intro pre post props hp
    obtain ⟨p, hmem, hcomp⟩ := hp
    have hobj : isLiteralLikeValue (mkObject props) = false := by
      rw [isLiteralLikeValue_mkObject, literalLikeProps_eq_all]
      rw [List.all_eq_false]
      exact ⟨p, hmem, by simp [hcomp]⟩
    rw [isLiteralLikeValue_mkArray, literalLikeElements_eq_all]
    rw [List.all_eq_false]
    refine ⟨some (mkObject props), by simp, by simp [hobj]⟩
  · intro s hpos hchars
    rw [isLiteralLikeValue.eq_def]
    have hsnake : screamingSnake (some s) = true := by
      simp [screamingSnake, hpos]
      intro c hc
      exact hchars c hc
    simp [identN, isLiteral, Node.type, Node.name, Node.fields, hsnake]

/-- C9 (witness): the closure property applied to `[ [1-element array], FOO ]`
style data: a concrete array of two literal-like elements, a concrete
poisoned array, and a concrete screaming-snake identifier. -/
theorem c9_witness :
    isLiteralLikeValue (mkArray ([numLit, identN "FOO"].map some)) = true ∧
    isLiteralLikeValue
      (mkArray ([some numLit] ++ some (mkObject [{ computed := true }]) :: [])) = false ∧
    isLiteralLikeValue (identN "FOO_BAR") = true := by
  refine ⟨?_, ?_, ?_⟩
  · refine c9_literal_like_nesting.1 [numLit, identN "FOO"] ?_
    intro e he
    rcases List.mem_pair.mp he with rfl | rfl
    · rw [isLiteralLikeValue.eq_def]
      simp [numLit, isLiteral, Node.type, Node.fields]
    · rw [isLiteralLikeValue.eq_def]
      simp [identN, isLiteral, screamingSnake, Node.type, Node.name, Node.fields]
      all_goals decide
  · exact c9_literal_like_nesting.2.1 [some numLit] [] [{ computed := true }]
      ⟨{ computed := true }, by simp, rfl⟩
  · exact c9_literal_like_nesting.2.2 "FOO_BAR" (by decide) (by decide)

/-- C10 (confirmed): an array expression with a hole (`null` element) is
never literal-like, while the empty array expression and the empty object
expression are both literal-like (the `every` quantifications hold
vacuously). -/
theorem c10_holes_and_empties :
    (∀ pre post : List (Option Node),
      isLiteralLikeValue (mkArray (pre ++ none :: post)) = false) ∧
    isLiteralLikeValue (mkArray []) = true ∧
    isLiteralLikeValue (mkObject []) = true := by
  refine ⟨?_, ?_, ?_⟩
  · intro pre post
    rw [isLiteralLikeValue_mkArray, literalLikeElements_eq_all]
    rw [List.all_eq_false]
    exact ⟨none, by simp, by simp⟩
  · rw [isLiteralLikeValue_mkArray]
    simp [literalLikeElements]
  · rw [isLiteralLikeValue_mkObject]
    simp [literalLikeProps]

/-! ## C4: the testing-framework call recognizer -/

/-- The unit-test trigger pattern exactly as the claim words it
(`[fx]?(it|describe|test)` — without the bare `skip` alternative that the
source regex also accepts). -/
def claimUnitTestTrigger (s : String) : Bool :=
  s = "it" || s = "describe" || s = "test" ||
  s = "fit" || s = "fdescribe" || s = "ftest" ||
  s = "xit" || s = "xdescribe" || s = "xtest"

/-- Callee condition of the (amended) two/three-argument test-call shape:
bare identifier matching the source trigger regex, or an `only`/`skip`
member of such an identifier. -/
def testCallCallee (n : Node) : Bool :=
  (match n.callee with
   | some c => c.type = "Identifier" && unitTestRe c.name
   | none => false) || isSkipOrOnlyBlock n

/-- First-argument condition: a template or string literal. -/
def testCallFirstArg (n : Node) : Bool :=
  match n.arguments[0]? with
  | some a0 => isTemplateLiteral a0 || isStringLiteral a0
  | none => false

/-- Third-argument condition: if present, it must be numeric. -/
def testCallThirdArg (n : Node) : Bool :=
  match n.arguments[2]? with
  | some a2 => isNumericLiteral a2
  | none => true

/-- Second-argument condition: in the two-argument form any function or
arrow expression; in the three-argument form a function expression or a
block-bodied arrow with at most one parameter; in either form a recognized
async wrapper also qualifies. -/
def testCallSecondArg (n : Node) : Bool :=
  match n.arguments[1]? with
  | some a1 =>
    (if n.arguments.length = 2 then isFunctionOrArrowExpression a1
     else isFunctionOrArrowExpressionWithBody a1 && a1.params.length ≤ 1) ||
    isAngularTestWrapper a1
  | none => false

/-- C4 (counterexample): `skip("x", () => {})` — the source regex
`/^(skip|[fx]?(it|describe|test))$/` accepts the bare callee `skip`, which
the claim's trigger pattern does not; `isTestCall` returns true while the
claim's characterization says false (the callee is a bare identifier, not
an `only`/`skip` member, and its name is outside the claim's pattern). -/
theorem c4_counterexample :
    isTestCall (mkCall (identN "skip") [strLit, arrowBlock]) none = true ∧
    (mkCall (identN "skip") [strLit, arrowBlock]).callee = some (identN "skip") ∧
    (identN "skip").type = "Identifier" ∧
    claimUnitTestTrigger "skip" = false ∧
    isSkipOrOnlyBlock (mkCall (identN "skip") [strLit, arrowBlock]) = false := by
  refine ⟨?_, rfl, rfl, by decide, by decide⟩
  simp [isTestCall, mkCall, identN, strLit, arrowBlock, blockStmt, Node.type, Node.fields,
    Node.arguments, Node.callee, Node.name, Node.body, unitTestRe, isTemplateLiteral,
    isStringLiteral, isNumericLiteral, isFunctionOrArrowExpression,
    isFunctionOrArrowExpressionWithBody, isAngularTestWrapper, isSkipOrOnlyBlock,
    isUnitTestSetUp, Node.value, Node.params]

/-- C4 (amended): on a `CallExpression` with two or three arguments,
`isTestCall` returns true iff the callee matches the source trigger pattern
(which also accepts bare `skip`) or is an `only`/`skip` member of a
matching identifier, the first argument is a string or template literal,
the third argument (if present) is numeric, and the second argument is as
described (block-bodied with at most one parameter required in the
three-argument form); the claim's five scenarios behave as listed. -/
theorem c4_amended_test_call :
    (∀ (n : Node) (parent : Option Node), n.type = "CallExpression" →
      (n.arguments.length = 2 ∨ n.arguments.length = 3) →
      isTestCall n parent =
        (testCallCallee n && testCallFirstArg n && testCallThirdArg n &&
         testCallSecondArg n)) ∧
    isTestCall (mkCall (identN "it") [strLit, arrowBlock]) none = true ∧
    isTestCall (mkCall (identN "it") [strLit, arrowBlock, numLit]) none = true ∧
    isTestCall (mkCall (identN "it") [strLit, funcExpr, strLit]) none = false ∧
    isTestCall (mkCall (mkMember (identN "it") (identN "skip")) [strLit, arrowBlock]) none = true ∧
    isTestCall (mkCall (identN "foo") [strLit, arrowBlock]) none = false := by
  refine ⟨?_, ?_, ?_, ?_, ?_, ?_⟩
  · intro n parent htype hlen
    rw [isTestCall.eq_def]
    unfold testCallCallee testCallFirstArg testCallThirdArg testCallSecondArg
    rcases hlen with h | h <;>
      simp only [htype, h, ne_eq] <;>
      cases hcc : n.callee <;>
      cases h0 : n.arguments[0]? <;>
      cases h1 : n.arguments[1]? <;>
      cases h2 : n.arguments[2]? <;>
      simp_all [Bool.and_assoc] <;>
      (try (split <;> simp_all [Bool.and_assoc])) <;>
      (try tauto)
  · simp [isTestCall, mkCall, identN, strLit, arrowBlock, blockStmt, Node.type, Node.fields,
      Node.arguments, Node.callee, Node.name, Node.body, unitTestRe, isTemplateLiteral,
      isStringLiteral, isNumericLiteral, isFunctionOrArrowExpression,
      isFunctionOrArrowExpressionWithBody, isAngularTestWrapper, isSkipOrOnlyBlock,
      isUnitTestSetUp, Node.value, Node.params]
  · simp [isTestCall, mkCall, identN, strLit, arrowBlock, blockStmt, numLit, Node.type,
      Node.fields, Node.arguments, Node.callee, Node.name, Node.body, unitTestRe,
      isTemplateLiteral, isStringLiteral, isNumericLiteral, isFunctionOrArrowExpression,
      isFunctionOrArrowExpressionWithBody, isAngularTestWrapper, isSkipOrOnlyBlock,
      isUnitTestSetUp, Node.value, Node.params]
  · simp [isTestCall, mkCall, identN, strLit, funcExpr, blockStmt, Node.type, Node.fields,
      Node.arguments, Node.callee, Node.name, Node.body, unitTestRe, isTemplateLiteral,
      isStringLiteral, isNumericLiteral, isFunctionOrArrowExpression,
      isFunctionOrArrowExpressionWithBody, isAngularTestWrapper, isSkipOrOnlyBlock,
      isUnitTestSetUp, Node.value, Node.params]
  · simp [isTestCall, mkCall, mkMember, identN, strLit, arrowBlock, blockStmt, Node.type,
      Node.fields, Node.arguments, Node.callee, Node.name, Node.body, Node.object,
      Node.property, unitTestRe, isTemplateLiteral, isStringLiteral, isNumericLiteral,
      isFunctionOrArrowExpression, isFunctionOrArrowExpressionWithBody,
      isAngularTestWrapper, isSkipOrOnlyBlock, isUnitTestSetUp, Node.value, Node.params]
  · simp [isTestCall, mkCall, identN, strLit, arrowBlock, blockStmt, Node.type, Node.fields,
      Node.arguments, Node.callee, Node.name, Node.body, unitTestRe, isTemplateLiteral,
      isStringLiteral, isNumericLiteral, isFunctionOrArrowExpression,
      isFunctionOrArrowExpressionWithBody, isAngularTestWrapper, isSkipOrOnlyBlock,
      isUnitTestSetUp, Node.value, Node.params]

/-- C4 (witness): the amended shape equation applied to `it("x", () => {})`. -/
theorem c4_witness :
    isTestCall (mkCall (identN "it") [strLit, arrowBlock]) none =
      (testCallCallee (mkCall (identN "it") [strLit, arrowBlock]) &&
       testCallFirstArg (mkCall (identN "it") [strLit, arrowBlock]) &&
       testCallThirdArg (mkCall (identN "it") [strLit, arrowBlock]) &&
       testCallSecondArg (mkCall (identN "it") [strLit, arrowBlock])) :=
  c4_amended_test_call.1 _ none rfl (Or.inl rfl)

/-! ## C8: the simple-template-literal detector -/

/-- The claim's characterization of an allowed interpolation: an identifier
or `this`, or a member/optional-member access spine rooted at an identifier
or `this`, every property along the spine being an identifier or a literal
key, with no comment attached to any visited node (the interpolated
expression itself included). -/
inductive SpecSpine : Node → Prop where
  | root (n : Node) :
      (n.type = "Identifier" ∨ n.type = "ThisExpression") →
      n.comments = false →
      SpecSpine n
  | step (n p o : Node) :
      (n.type = "MemberExpression" ∨ n.type = "OptionalMemberExpression") →
      n.comments = false →
      n.property = some p →
      (p.type = "Identifier" ∨ p.type = "Literal" ∨ p.type = "StringLiteral" ∨
       p.type = "NumericLiteral") →
      n.object = some o →
      SpecSpine o →
      SpecSpine n

theorem SpecSpine.comments_false {n : Node} (h : SpecSpine n) : n.comments = false := by
  cases h <;> assumption

theorem chainWalk_ok_iff_aux :
    ∀ (k : Nat) (n : Node), sizeOf n ≤ k → n.comments = false →
      (chainWalk n = .ok true ↔ SpecSpine n) := by
  intro k
  induction k with
  | zero =>
    intro n hn
    exfalso
    cases n with
    | mk f =>
      simp at hn
  | succ k ih =>
    intro n hn hcom
    constructor
    · intro hcw
      rw [chainWalk.eq_def] at hcw
      split at hcw
      · rename_i hm
        split at hcw
        · simp at hcw
        · rename_i p hp
          split at hcw
          · simp at hcw
          · rename_i hpt
            split at hcw
            · simp at hcw
            · rename_i o ho
              split at hcw
              · simp at hcw
              · rename_i hoc
                have hoc2 : o.comments = false := by
                  revert hoc
                  cases o.comments <;> simp
                have hso := (ih o (by
                  have := sizeOf_lt_of_object ho
                  omega) hoc2).mp hcw
                simp at hm hpt
                exact SpecSpine.step n p o hm hcom hp (by tauto) ho hso
      · rename_i hm
        simp at hcw
        exact SpecSpine.root n hcw hcom
    · intro hsp
      rw [chainWalk.eq_def]
      cases hsp with
      | root _ hid hcf =>
        have hmB : ¬ ((n.type = "MemberExpression" || n.type = "OptionalMemberExpression") = true) := by
          rcases hid with h | h <;> simp [h]
        rw [if_neg hmB]
        rcases hid with h | h <;> simp [h]
      | step _ p o hm hcf hp hpt ho hso =>
        have hmB : (n.type = "MemberExpression" || n.type = "OptionalMemberExpression") = true := by
          rcases hm with h | h <;> simp [h]
        rw [if_pos hmB]
        simp only [hp]
        have hptB : ¬ ((!(p.type = "Identifier" || p.type = "Literal" ||
            p.type = "StringLiteral" || p.type = "NumericLiteral")) = true) := by
          rcases hpt with h | h | h | h <;> simp [h]
        rw [if_neg hptB]
        split
        · rename_i ho2
          rw [ho2] at ho
          exact absurd ho (by simp)
        · rename_i o2 ho2
          have heq : o2 = o := by
            rw [ho2] at ho
            injection ho
          rw [heq]
          rw [if_neg (by simp [hso.comments_false])]
          exact (ih o (by
            have := sizeOf_lt_of_object ho
            omega) hso.comments_false).mpr hso

theorem chainWalk_ok_iff (n : Node) (hcom : n.comments = false) :
    chainWalk n = .ok true ↔ SpecSpine n :=
  chainWalk_ok_iff_aux (sizeOf n) n le_rfl hcom

theorem interpolationOk_ok_iff (e : Node) :
    interpolationOk e = .ok true ↔ SpecSpine e := by
  constructor
  · intro h
    unfold interpolationOk at h
    split at h
    · simp at h
    · rename_i hc
      have hcf : e.comments = false := by
        revert hc
        cases e.comments <;> simp
      split at h
      · rename_i hid
        simp at hid
        exact SpecSpine.root e hid hcf
      · rename_i hid
        split at h
        · exact (chainWalk_ok_iff e hcf).mp h
        · simp at h
  · intro hsp
    unfold interpolationOk
    have hcf := hsp.comments_false
    rw [if_neg (by simp [hcf])]
    cases hsp with
    | root _ hid hc2 =>
      have hidB : (e.type = "Identifier" || e.type = "ThisExpression") = true := by
        rcases hid with h | h <;> simp [h]
      rw [if_pos hidB]
    | step _ p o hm hc2 hp hpt ho hso =>
      have hidB : ¬ ((e.type = "Identifier" || e.type = "ThisExpression") = true) := by
        rcases hm with h | h <;> simp [h]
      rw [if_neg hidB]
      have hmB : (e.type = "MemberExpression" || e.type = "OptionalMemberExpression") = true := by
        rcases hm with h | h <;> simp [h]
      rw [if_pos hmB]
      exact (chainWalk_ok_iff e hc2).mpr (SpecSpine.step e p o hm hc2 hp hpt ho hso)

theorem allInterpolationsOk_ok_iff (l : List Node) :
    allInterpolationsOk l = .ok true ↔ ∀ e ∈ l, SpecSpine e := by
  induction l with
  | nil => simp [allInterpolationsOk]
  | cons e rest ih =>
    rw [allInterpolationsOk]
    cases hio : interpolationOk e with
    | error u =>
      constructor
      · intro h
        exact absurd h (by simp)
      · intro h
        have h2 := (interpolationOk_ok_iff e).mpr (h e (by simp))
        rw [h2] at hio
        exact absurd hio (by simp)
    | ok b =>
      cases b with
      | false =>
        constructor
        · intro h
          exact absurd h (by simp)
        · intro h
          have h2 := (interpolationOk_ok_iff e).mpr (h e (by simp))
          rw [h2] at hio
          exact absurd hio (by simp)
      | true =>
        rw [ih]
        constructor
        · intro h x hx
          rcases List.mem_cons.mp hx with rfl | hx2
          · exact (interpolationOk_ok_iff x).mp hio
          · exact h x hx2
        · intro h x hx
          exact h x (List.mem_cons_of_mem e hx)

/-- C8 (confirmed): `isSimpleTemplateLiteral` returns false on a template
with zero interpolations, and otherwise returns `ok true` exactly when
every interpolated expression satisfies the claim's characterization
(identifier/`this`, or an identifier-or-literal-keyed member spine rooted
at an identifier/`this`, comment-free at every visited node). -/
theorem c8_simple_template_iff (n : Node) (l : List Node)
    (hexp : n.expressions = some l) :
    (l = [] → isSimpleTemplateLiteral n = .ok false) ∧
    (isSimpleTemplateLiteral n = .ok true ↔ l ≠ [] ∧ ∀ e ∈ l, SpecSpine e) := by
  have hred : isSimpleTemplateLiteral n =
      if l.length = 0 then Except.ok false else allInterpolationsOk l := by
    unfold isSimpleTemplateLiteral
    rw [hexp]
  rw [hred]
  constructor
  · intro h
    subst h
    simp
  · by_cases hnil : l = []
    · subst hnil
      simp
    · have hlen : ¬ l.length = 0 := by simpa using hnil
      rw [if_neg hlen]
      rw [allInterpolationsOk_ok_iff]
      simp [hnil]

/-- C8 (witness): the iff applied to a template literal whose single
interpolation is a bare identifier. -/
theorem c8_witness :
    isSimpleTemplateLiteral
      (Node.mk { type := "TemplateLiteral", expressions := some [identN "x"] }) = .ok true :=
  (c8_simple_template_iff
      (Node.mk { type := "TemplateLiteral", expressions := some [identN "x"] })
      [identN "x"] rfl).2.mpr
    ⟨by simp, by
      intro e he
      rw [List.mem_singleton] at he
      subst he
      exact SpecSpine.root _ (Or.inl rfl) rfl⟩

end PrettierUtils
